import Mathlib

/-!
Shallow embedding of the JupyterLab extension-manager model
(`packages/extensionmanager/src/model.ts`): the `Entry` data model, the two
translation channels, the comparator/sort, the reconciliation pass (`update`),
the pending-action tracker, the action methods (as event traces), and the
companion-package gate.  External collaborators (HTTP server, npm registry,
`semver` library, regular-expression matching, user dialogs) appear as
explicit parameters or as `Except`-valued outcomes of the corresponding
asynchronous calls.
-/

namespace ExtensionManager

/-- Status flag of an entry (`IEntry.status` in model.ts, lines 52-54):
`'ok' | 'warning' | 'error' | 'deprecated' | null`. -/
inductive EntryStatus where
  | ok
  | warning
  | error
  | deprecated
  | null
  deriving DecidableEq, Repr

/-- Information about an extension (`IEntry`, model.ts lines 25-65). -/
structure Entry where
  name : String
  description : String
  url : String
  installed : Bool
  enabled : Bool
  status : EntryStatus
  latest_version : String
  installed_version : String
  deriving DecidableEq, Repr

/-- Wire format for installed extensions (`IInstalledEntry`, model.ts lines
70-110); `installed?: boolean` is optional on the wire. -/
structure InstalledEntry where
  name : String
  description : String
  url : String
  installed : Option Bool
  enabled : Bool
  latest_version : String
  installed_version : String
  status : EntryStatus
  deriving DecidableEq, Repr

/-- Status category of an action reply (`IActionReply.status`, model.ts
lines 115-125): `'ok' | 'warning' | 'error' | null`. -/
inductive ActionStatus where
  | ok
  | warning
  | error
  | null
  deriving DecidableEq, Repr

/-- Server reply to performing an action (`IActionReply`, model.ts 115-125). -/
structure ActionReply where
  status : ActionStatus
  message : Option String
  deriving DecidableEq, Repr

/-- Links record of a registry search package (`query.ts` wire shape used at
model.ts lines 409-414): `{homepage?, repository?, npm}`. -/
structure SearchLinks where
  homepage : Option String
  repository : Option String
  npm : String
  deriving DecidableEq, Repr

/-- One package record of a registry search result (used in
`translateSearchResult`, model.ts lines 397-423). -/
structure SearchPackage where
  name : String
  description : String
  version : String
  keywords : List String
  links : SearchLinks
  deriving DecidableEq, Repr

/-- One object of a registry search result (`ISearchResult.objects` element:
`{package: ...}`). -/
structure SearchObject where
  package : SearchPackage
  deriving DecidableEq, Repr

/-- Registry search result page (`ISearchResult`): a list of objects and the
total count reported by the registry. -/
structure SearchResultPage where
  objects : List SearchObject
  total : Nat
  deriving DecidableEq, Repr

/-- Intermediate `name -> Entry` mapping (`{ [key: string]: IEntry }`),
modelled as an association list in JS-object insertion order: assigning to an
existing key replaces the value in place, a new key is appended. -/
abbrev EntryMap := List (String × Entry)

/-- JS object assignment `m[k] = v`: replace in place if `k` is present,
otherwise append at the end. -/
def objSet (m : EntryMap) (k : String) (v : Entry) : EntryMap :=
  match m with
  | [] => [(k, v)]
  | p :: rest => if p.1 = k then (k, v) :: rest else p :: objSet rest k v

/-- JS object read `m[k]`, `none` standing for `undefined`. -/
def lookupEntry (m : EntryMap) (k : String) : Option Entry :=
  match m with
  | [] => none
  | p :: rest => if p.1 = k then some p.2 else lookupEntry rest k

/-- JS `Object.keys(m)` in insertion order. -/
def mapKeys (m : EntryMap) : List String :=
  m.map (fun p => p.1)

/-- Entry built from one registry search package (body of the loop in
`translateSearchResult`, model.ts lines 406-420). -/
def entryOfSearchPackage (pkg : SearchPackage) : Entry :=
  { name := pkg.name
    description := pkg.description
    url :=
      match pkg.links.homepage with
      | some h => h
      | none =>
        match pkg.links.repository with
        | some r => r
        | none => pkg.links.npm
    installed := false
    enabled := false
    status := EntryStatus.null
    latest_version := pkg.version
    installed_version := "" }

/-- Translate registry search results into an entry map, dropping packages
whose keyword list contains `'deprecated'` (`ListModel.translateSearchResult`,
model.ts lines 397-423). -/
def translateSearchResult (objects : List SearchObject) : EntryMap :=
  objects.foldl
    (fun acc obj =>
      if obj.package.keywords.contains "deprecated" then acc
      else objSet acc obj.package.name (entryOfSearchPackage obj.package))
    []

/-- Entry built from one installed-list wire record (body of
`translateInstalled`, model.ts lines 438-447); `installed := pkg.installed
!== false` defaults a missing flag to `true`. -/
def entryOfInstalled (pkg : InstalledEntry) : Entry :=
  { name := pkg.name
    description := pkg.description
    url := pkg.url
    installed := decide (pkg.installed ≠ some false)
    enabled := pkg.enabled
    status := pkg.status
    latest_version := pkg.latest_version
    installed_version := pkg.installed_version }

/-- Translate the server's installed-extension list into an entry map
(`ListModel.translateInstalled`, model.ts lines 430-454; the inner promises
all resolve over the same reply, so the net effect is one insertion per wire
record, in wire order). -/
def translateInstalled (list : List InstalledEntry) : EntryMap :=
  list.foldl (fun acc pkg => objSet acc pkg.name (entryOfInstalled pkg)) []

/-- Comparator that sorts trusted-organization names to the top
(`Private.comparator`, model.ts lines 732-748).  The trusted-namespace test
`isJupyterOrg` lives in `./query`, outside the excerpt; modelled from the
spec ("a designated trusted namespace") as an arbitrary name predicate
passed in as `trusted`. -/
def comparator (trusted : String → Bool) (a b : Entry) : Int :=
  if a.name = b.name then 0
  else
    let testA := trusted a.name
    let testB := trusted b.name
    if testA = testB then 0
    else if testA && !testB then -1
    else 1

/-- Boolean "does not sort after" relation induced by `comparator`, the order
a stable comparison sort realises. -/
def entryLe (trusted : String → Bool) (a b : Entry) : Bool :=
  decide (comparator trusted a b ≤ 0)

/-- Insert `x` before the first element it "does not sort after", keeping it
after every element that strictly sorts before it. -/
def insertOrdered {α : Type} (le : α → α → Bool) (x : α) : List α → List α
  | [] => [x]
  | b :: t => if le x b then x :: b :: t else b :: insertOrdered le x t

/-- Stable insertion sort by a boolean "does not sort after" relation. -/
def stableSort {α : Type} (le : α → α → Bool) : List α → List α
  | [] => []
  | x :: t => insertOrdered le x (stableSort le t)

/-- JS `array.sort(Private.comparator)` as used at model.ts lines 573 and
584.  `Array.prototype.sort` is a stable comparison sort and `comparator` is
a consistent comparator (a total preorder with two classes), so the stable
result is unique; it is realised here by a stable insertion sort. -/
def sortEntries (trusted : String → Bool) (l : List Entry) : List Entry :=
  stableSort (entryLe trusted) l

/-- Fields of `ListModel` that the reconciliation pass reads and writes
(model.ts lines 653-705). -/
structure ModelState where
  installed : List Entry
  searchResult : List Entry
  query : Option String
  page : Nat
  pagination : Nat
  totalEntries : Nat
  installedError : Option String
  searchError : Option String
  serverConnectionError : Option String
  deriving DecidableEq, Repr

/-- Settled outcomes of the two asynchronous fetches one reconciliation pass
may start: the registry search and the installed-extension query.  An
`Except.error` value is the stringified reason of a rejected promise (for a
non-2xx response, `Private.handleError` rejects with
`"<status> (<statusText>)"`, model.ts lines 794-799). -/
structure UpdateEnv where
  searchOutcome : Except String SearchResultPage
  installedOutcome : Except String (List InstalledEntry)
  deriving Repr

/-- Search with the current query (`ListModel.performSearch`, model.ts lines
495-527).  Returns the updated state, the search map, and whether a registry
call was made.  With a `null` query the method returns an empty map before
any registry call; otherwise a rejected search sets `searchError` and yields
an empty map, and the same settled outcome drives `totalEntries`. -/
def performSearch (s : ModelState) (out : Except String SearchResultPage) :
    ModelState × EntryMap × Bool :=
  match s.query with
  | none =>
      ({ s with searchResult := [], totalEntries := 0, searchError := none },
        [], false)
  | some _ =>
      match out with
      | Except.ok page =>
          ({ s with searchError := none, totalEntries := page.total },
            translateSearchResult page.objects, true)
      | Except.error reason =>
          ({ s with searchError := some reason, totalEntries := 0 }, [], true)

/-- Query the installed extensions (`ListModel.queryInstalled`, model.ts
lines 536-550, together with the `serverConnectionError` bookkeeping of
`fetchInstalled`, lines 477-484): success clears both slots, a rejection
records its reason in both and yields an empty map. -/
def queryInstalled (s : ModelState)
    (out : Except String (List InstalledEntry)) : ModelState × EntryMap :=
  match out with
  | Except.ok list =>
      ({ s with installedError := none, serverConnectionError := none },
        translateInstalled list)
  | Except.error reason =>
      ({ s with installedError := some reason,
                serverConnectionError := some reason }, [])

/-- Values of the installed map in key order, the list sorted into the
`installed` view (model.ts lines 569-573). -/
def installedViewInput (installedMap : EntryMap) : List Entry :=
  installedMap.map (fun p => p.2)

/-- Merged pre-sort search view (model.ts lines 575-583): for each key of the
search map, the installed map's entry when present, the search entry
otherwise. -/
def searchViewInput (searchMap installedMap : EntryMap) : List Entry :=
  searchMap.map (fun p =>
    match lookupEntry installedMap p.1 with
    | some e => e
    | none => p.2)

/-- One reconciliation pass (`ListModel.update`, model.ts lines 559-588):
run both channel functions, then publish both sorted views. -/
def update (trusted : String → Bool) (s : ModelState) (env : UpdateEnv) :
    ModelState :=
  let ps := performSearch s env.searchOutcome
  let qi := queryInstalled ps.1 env.installedOutcome
  let searchMap := ps.2.1
  let installedMap := qi.2
  { qi.1 with
    installed := sortEntries trusted (installedViewInput installedMap)
    searchResult :=
      sortEntries trusted (searchViewInput searchMap installedMap) }

/-- Pending-action tracker portion of the model state: the
`_pendingActions` array of in-flight promise handles (handles modelled as
numbers) and a counter of `stateChanged` emissions. -/
structure PendingTracker where
  pendingActions : List Nat
  stateChangedCount : Nat
  deriving DecidableEq, Repr

/-- JS `array.indexOf(x)`: index of the first occurrence, `-1` if absent. -/
def jsIndexOf (l : List Nat) (x : Nat) : Int :=
  match l.findIdx? (fun a => a = x) with
  | some i => (i : Int)
  | none => -1

/-- JS `array.splice(i, 1)` (result array): a negative start counts from the
end, clamped at `0`; a start past the end removes nothing. -/
def jsSpliceOne (l : List Nat) (i : Int) : List Nat :=
  let j : Int := if i < 0 then max ((l.length : Int) + i) 0 else i
  l.take j.toNat ++ l.drop (j.toNat + 1)

/-- Add a pending action (`ListModel._addPendingAction`, model.ts lines
637-651): push the handle, then emit `stateChanged`. -/
def addPendingAction (t : PendingTracker) (h : Nat) : PendingTracker :=
  { pendingActions := t.pendingActions ++ [h]
    stateChangedCount := t.stateChangedCount + 1 }

/-- Completion handler `remove` installed by `_addPendingAction` via
`pending.then(remove, remove)` (model.ts lines 642-647), so it runs the same
way on success and on failure: `splice` out the handle at its `indexOf`
position, then emit `stateChanged`. -/
def completePendingAction (t : PendingTracker) (h : Nat) : PendingTracker :=
  { pendingActions :=
      jsSpliceOne t.pendingActions (jsIndexOf t.pendingActions h)
    stateChangedCount := t.stateChangedCount + 1 }

/-- Whether there are currently any actions pending
(`ListModel.hasPendingActions`, model.ts lines 233-235). -/
def hasPendingActions (t : PendingTracker) : Bool :=
  t.pendingActions.length > 0

/-- Observable steps taken by an action method: the POSTed server request,
the build check chained on a 2xx response, an install-error report, and a
re-run of the reconciliation pass. -/
inductive Ev where
  | net (cmd : String) (extensionName : String)
  | buildCheck
  | report (packageName : String)
  | updateRun
  deriving DecidableEq, Repr

/-- Events of `promise.then(onFulfilled)` with no rejection handler: the
handler runs on a fulfilled promise only; a rejection runs nothing further.
-/
def thenEvents {α : Type} (p : Except String α) (k : α → List Ev) : List Ev :=
  match p with
  | Except.ok a => k a
  | Except.error _ => []

/-- Events of `ListModel._performAction` (model.ts lines 596-630) given the
settled outcome of the POST: the request itself, then — only on a 2xx
response — the chained `triggerBuildCheck` (`Private.handleError` rejects
the promise first on a non-2xx response). -/
def performActionEvents (action : String) (entry : Entry)
    (outcome : Except String ActionReply) : List Ev :=
  Ev.net action entry.name ::
    (match outcome with
     | Except.ok _ => [Ev.buildCheck]
     | Except.error _ => [])

/-- Handler chained onto a resolved action reply by `install` (model.ts
lines 245-250 and 254-259): report a non-ok status, then re-run `update`. -/
def installReplyEvents (entry : Entry) (data : ActionReply) : List Ev :=
  (if data.status ≠ ActionStatus.ok then [Ev.report entry.name] else []) ++
    [Ev.updateRun]

/-- Events of `ListModel.install` (model.ts lines 242-262).  `companion` is
the settled outcome of the `checkCompanionPackages` promise, `outcome` the
settled outcome of the action POST.  `install` never raises synchronously.
-/
def installEvents (entry : Entry) (companion : Except String Bool)
    (outcome : Except String ActionReply) : Except String (List Ev) :=
  if entry.installed then
    Except.ok (performActionEvents "install" entry outcome ++
      thenEvents outcome (installReplyEvents entry))
  else
    Except.ok (thenEvents companion (fun shouldInstall =>
      if shouldInstall then
        performActionEvents "install" entry outcome ++
          thenEvents outcome (installReplyEvents entry)
      else []))

/-- Events of `ListModel.uninstall` (model.ts lines 269-276): a synchronous
`Except.error` (carrying no events, hence no network call) when the entry is
not installed; otherwise the action with `update` chained on fulfillment
only. -/
def uninstallEvents (entry : Entry)
    (outcome : Except String ActionReply) : Except String (List Ev) :=
  if !entry.installed then
    Except.error ("Not installed, cannot uninstall: " ++ entry.name)
  else
    Except.ok (performActionEvents "uninstall" entry outcome ++
      thenEvents outcome (fun _ => [Ev.updateRun]))

/-- Events of `ListModel.enable` (model.ts lines 283-290). -/
def enableEvents (entry : Entry)
    (outcome : Except String ActionReply) : Except String (List Ev) :=
  if entry.enabled then
    Except.error ("Already enabled: " ++ entry.name)
  else
    Except.ok (performActionEvents "enable" entry outcome ++
      thenEvents outcome (fun _ => [Ev.updateRun]))

/-- Events of `ListModel.disable` (model.ts lines 297-304). -/
def disableEvents (entry : Entry)
    (outcome : Except String ActionReply) : Except String (List Ev) :=
  if !entry.enabled then
    Except.error ("Already disabled: " ++ entry.name)
  else
    Except.ok (performActionEvents "disable" entry outcome ++
      thenEvents outcome (fun _ => [Ev.updateRun]))

/-- Events actually run by an action once it returned without a synchronous
error: the payload of `Except.ok`, nothing for `Except.error`. -/
def okEvents (r : Except String (List Ev)) : List Ev :=
  match r with
  | Except.ok evs => evs
  | Except.error _ => []

/-- Kernel-spec pattern of one discovery rule (`kernel_spec` of
`IKernelInstallInfo` in companions.ts, read at model.ts lines 766-770). -/
structure KernelSpecPattern where
  language : Option String
  display_name : Option String
  deriving DecidableEq, Repr

/-- One kernel-companion discovery rule (`IKernelInstallInfo`). -/
structure KernelInstallInfo where
  kernel_spec : KernelSpecPattern
  deriving DecidableEq, Repr

/-- One available kernel specification, as far as matching reads it
(model.ts lines 772-780). -/
structure KernelSpecModel where
  language : String
  display_name : String
  deriving DecidableEq, Repr

/-- One computed kernel companion (`KernelCompanion` of companions.ts): the
rule together with its matched specs, possibly empty. -/
abbrev KernelCompanion := KernelInstallInfo × List KernelSpecModel

/-- Discovery metadata of a package (`data.jupyterlab.discovery` as read at
model.ts lines 315-333); `server` is the optional server-side companion
declaration, its payload irrelevant to the gate. -/
structure DiscoveryInfo where
  kernel : Option (List KernelInstallInfo)
  server : Option Unit
  deriving DecidableEq, Repr

/-- The `jupyterlab` section of fetched package metadata. -/
structure JupyterLabInfo where
  discovery : Option DiscoveryInfo
  deriving DecidableEq, Repr

/-- Fetched package metadata (`fetchPackageData` result shape). -/
structure PackageData where
  jupyterlab : Option JupyterLabInfo
  deriving DecidableEq, Repr

/-- The kernel-companion list computed for a discovery section (loop at
model.ts lines 320-329): one `KernelCompanion` per declared rule, keeping
rules whose match list is empty. -/
def kernelCompanionsOf (matchFn : KernelInstallInfo → List KernelSpecModel)
    (discovery : DiscoveryInfo) : List KernelCompanion :=
  match discovery.kernel with
  | none => []
  | some rules => rules.map (fun kernelInfo => (kernelInfo, matchFn kernelInfo))

/-- Companion-package gate (`ListModel.checkCompanionPackages`, model.ts
lines 311-335) on resolved metadata `data`.  `matchFn` stands for
`Private.matchSpecs` applied to the ambient kernel specs (its inner
`RegExp.test` is a JS built-in, external to the excerpt); `decision` is the
`presentCompanions` collaborator returning the user's choice.  Returns the
gate's boolean together with what was presented to the user, `none` when no
decision was requested. -/
def checkCompanionPackages
    (matchFn : KernelInstallInfo → List KernelSpecModel)
    (decision : List KernelCompanion → Option Unit → Bool)
    (data : Option PackageData) :
    Bool × Option (List KernelCompanion × Option Unit) :=
  match (data.bind (fun d => d.jupyterlab)).bind (fun j => j.discovery) with
  | none => (true, none)
  | some discovery =>
      let kernelCompanions := kernelCompanionsOf matchFn discovery
      if kernelCompanions.length < 1 ∧ discovery.server = none then
        (true, none)
      else
        (decision kernelCompanions discovery.server,
          some (kernelCompanions, discovery.server))

/-- Utility to check whether an entry can be updated
(`ListModel.entryHasUpdate`, model.ts lines 717-722).  `semverLt` stands for
`semver.lt` of the external `semver` npm package; `!entry.latest_version` is
string falsiness, i.e. emptiness. -/
def entryHasUpdate (semverLt : String → String → Bool) (entry : Entry) :
    Bool :=
  if !entry.installed || entry.latest_version == "" then false
  else semverLt entry.installed_version entry.latest_version

/-- Whether an action method returned without a synchronous error. -/
def isOkResult (r : Except String (List Ev)) : Bool :=
  match r with
  | Except.ok _ => true
  | Except.error _ => false

/-- Concrete installed and enabled entry used in concrete instantiations. -/
def demoInstalled : Entry :=
  { name := "@jupyterlab/foo", description := "demo", url := ""
    installed := true, enabled := true, status := EntryStatus.ok
    latest_version := "2.0.0", installed_version := "1.0.0" }

/-- Concrete entry that is neither installed nor enabled. -/
def demoNotInstalled : Entry :=
  { name := "bar", description := "", url := ""
    installed := false, enabled := false, status := EntryStatus.null
    latest_version := "1.0.0", installed_version := "" }

/-- Concrete `ok` action reply. -/
def replyOk : ActionReply :=
  { status := ActionStatus.ok, message := none }

/-- Concrete trusted-namespace predicate for instantiations. -/
def trusted0 : String → Bool :=
  fun pkgName => pkgName == "@jupyterlab/t"

/-- Concrete trusted entry. -/
def entryT : Entry :=
  { name := "@jupyterlab/t", description := "", url := ""
    installed := false, enabled := false, status := EntryStatus.null
    latest_version := "1.0.0", installed_version := "" }

/-- Concrete untrusted entry. -/
def entryU : Entry :=
  { name := "other", description := "", url := ""
    installed := false, enabled := false, status := EntryStatus.null
    latest_version := "1.0.0", installed_version := "" }

/-- Concrete upstream list, untrusted entry first. -/
def demoViewList : List Entry := [entryU, entryT]

/-- Concrete model state for instantiations. -/
def demoState : ModelState :=
  { installed := [], searchResult := [], query := none, page := 0
    pagination := 250, totalEntries := 0, installedError := none
    searchError := none, serverConnectionError := none }

/-- Concrete update environment for instantiations. -/
def demoEnv : UpdateEnv :=
  { searchOutcome := Except.error "search down"
    installedOutcome := Except.error "server down" }

/-- Concrete registry package also present in the installed list. -/
def pkgA : SearchPackage :=
  { name := "a", description := "registry snapshot", version := "2.0.0"
    keywords := [], links := { homepage := none, repository := none
                               npm := "https://npm/a" } }

/-- Concrete search page holding `pkgA`. -/
def pageA : SearchResultPage :=
  { objects := [{ package := pkgA }], total := 1 }

/-- Concrete installed-list wire record for the same package name. -/
def wireA : InstalledEntry :=
  { name := "a", description := "installed truth", url := ""
    installed := some true, enabled := true, latest_version := "2.0.0"
    installed_version := "1.0.0", status := EntryStatus.ok }

/-- Concrete installed-list wire record violating the entry invariant:
not installed, yet enabled with a non-empty installed version. -/
def badWire : InstalledEntry :=
  { name := "x", description := "", url := ""
    installed := some false, enabled := true, latest_version := "2.0.0"
    installed_version := "1.0.0", status := EntryStatus.ok }

/-- Concrete metadata whose discovery section declares no companions. -/
def dataNoCompanions : Option PackageData :=
  some { jupyterlab := some { discovery := some { kernel := none
                                                  server := none } } }

/-- Concrete match function for instantiations. -/
def matchFn0 : KernelInstallInfo → List KernelSpecModel :=
  fun _ => []

/-- Concrete user-decision collaborator for instantiations. -/
def decision0 : List KernelCompanion → Option Unit → Bool :=
  fun _ _ => false

/-- Concrete empty pending tracker. -/
def tracker0 : PendingTracker :=
  { pendingActions := [], stateChangedCount := 0 }

/-- Pre-sort search map a pass works from: second component of
`performSearch`. -/
def searchMapOf (s : ModelState) (env : UpdateEnv) : EntryMap :=
  (performSearch s env.searchOutcome).2.1

/-- Installed map a pass works from: second component of `queryInstalled`
run after `performSearch`. -/
def installedMapOf (s : ModelState) (env : UpdateEnv) : EntryMap :=
  (queryInstalled (performSearch s env.searchOutcome).1 env.installedOutcome).2

/-! Lemmas about the comparator and the stable sort. -/

theorem entryLe_eq (trusted : String → Bool) (a b : Entry) :
    entryLe trusted a b = (trusted a.name || !trusted b.name) := by
  unfold entryLe comparator
  by_cases hn : a.name = b.name
  · rw [hn]
    cases trusted b.name <;> simp [hn]
  · cases hA : trusted a.name <;> cases hB : trusted b.name <;>
      simp [hn, hA, hB]

theorem insertOrdered_skip {α : Type} (le : α → α → Bool) (x : α)
    (A B : List α) (hA : ∀ a ∈ A, le x a = false)
    (hB : ∀ b ∈ B, le x b = true) :
    insertOrdered le x (A ++ B) = A ++ x :: B := by
  induction A with
  | nil =>
    cases B with
    | nil => rfl
    | cons b t => simp [insertOrdered, hB b (by simp)]
  | cons a A ih =>
    have hxa := hA a (by simp)
    simp only [List.cons_append, insertOrdered, hxa, Bool.false_eq_true,
      if_false]
    exact congrArg (a :: ·) (ih (fun a ha => hA a (by simp [ha])))

theorem stableSort_two_class {α : Type} (p : α → Bool) (le : α → α → Bool)
    (hle : ∀ a b, le a b = (p a || !p b)) (l : List α) :
    stableSort le l = l.filter p ++ l.filter (fun e => !p e) := by
  induction l with
  | nil => rfl
  | cons x t ih =>
    cases hp : p x with
    | true =>
      have hins : insertOrdered le x (stableSort le t) =
          x :: stableSort le t := by
        cases hst : stableSort le t with
        | nil => rfl
        | cons b u => simp [insertOrdered, hle, hp]
      rw [stableSort, hins, ih]
      simp [List.filter_cons, hp]
    | false =>
      rw [stableSort, ih, insertOrdered_skip le x _ _ ?_ ?_]
      · simp [List.filter_cons, hp]
      · intro a ha
        rw [hle]
        simp [hp, (List.mem_filter.mp ha).2]
      · intro b hb
        have hbp := (List.mem_filter.mp hb).2
        rw [hle, hp]
        simp only [Bool.false_or]
        exact hbp

theorem sortEntries_eq (trusted : String → Bool) (l : List Entry) :
    sortEntries trusted l =
      l.filter (fun e => trusted e.name) ++
        l.filter (fun e => !trusted e.name) := by
  exact stableSort_two_class (fun e => trusted e.name) (entryLe trusted)
    (entryLe_eq trusted) l

theorem mem_sortEntries (trusted : String → Bool) (l : List Entry)
    (e : Entry) : e ∈ sortEntries trusted l ↔ e ∈ l := by
  rw [sortEntries_eq]
  simp only [List.mem_append, List.mem_filter]
  cases h : trusted e.name <;> simp [h]

theorem append_classes_ordered {α : Type} (p : α → Bool) (A B : List α)
    (hA : ∀ e ∈ A, p e = true) (hB : ∀ e ∈ B, p e = false) :
    ∀ i j (hi : i < (A ++ B).length) (hj : j < (A ++ B).length), i ≤ j →
      p ((A ++ B).get ⟨j, hj⟩) = true → p ((A ++ B).get ⟨i, hi⟩) = true := by
  intro i j hi hj hij hpj
  by_cases hiA : i < A.length
  · rw [List.get_eq_getElem, List.getElem_append_left hiA]
    exact hA _ (List.getElem_mem hiA)
  · exfalso
    have hjA : A.length ≤ j := le_trans (Nat.le_of_not_lt hiA) hij
    rw [List.get_eq_getElem, List.getElem_append_right hjA] at hpj
    have hlt : j - A.length < B.length := by
      have h3 := hj
      rw [List.length_append] at h3
      omega
    have hmem := @List.getElem_mem _ B (j - A.length) hlt
    rw [hB _ hmem] at hpj
    exact Bool.false_ne_true hpj

/-! Lemmas about the entry maps and the translations. -/

theorem mem_objSet {m : EntryMap} {k : String} {v : Entry}
    {q : String × Entry} (h : q ∈ objSet m k v) : q ∈ m ∨ q = (k, v) := by
  induction m with
  | nil => simpa [objSet] using h
  | cons p rest ih =>
    rw [objSet] at h
    split at h
    · rcases List.mem_cons.mp h with h2 | h2
      · exact Or.inr h2
      · exact Or.inl (List.mem_cons_of_mem _ h2)
    · rcases List.mem_cons.mp h with h2 | h2
      · exact Or.inl (h2 ▸ List.mem_cons_self _ _)
      · rcases ih h2 with h3 | h3
        · exact Or.inl (List.mem_cons_of_mem _ h3)
        · exact Or.inr h3

theorem mem_translateSearchResult_aux (objects : List SearchObject)
    (acc : EntryMap) {q : String × Entry}
    (h : q ∈ objects.foldl
      (fun acc obj =>
        if obj.package.keywords.contains "deprecated" then acc
        else objSet acc obj.package.name (entryOfSearchPackage obj.package))
      acc) :
    q ∈ acc ∨ ∃ pkg : SearchPackage,
      q = (pkg.name, entryOfSearchPackage pkg) := by
  induction objects generalizing acc with
  | nil => exact Or.inl h
  | cons obj rest ih =>
    rw [List.foldl_cons] at h
    by_cases hd : obj.package.keywords.contains "deprecated"
    · rw [if_pos hd] at h
      exact ih acc h
    · rw [if_neg hd] at h
      rcases ih _ h with h2 | h2
      · rcases mem_objSet h2 with h3 | h3
        · exact Or.inl h3
        · exact Or.inr ⟨obj.package, h3⟩
      · exact Or.inr h2

theorem mem_translateSearchResult {objects : List SearchObject}
    {q : String × Entry} (h : q ∈ translateSearchResult objects) :
    ∃ pkg : SearchPackage, q = (pkg.name, entryOfSearchPackage pkg) := by
  rcases mem_translateSearchResult_aux objects [] h with h2 | h2
  · simp at h2
  · exact h2

theorem mem_translateInstalled_aux (list : List InstalledEntry)
    (acc : EntryMap) {q : String × Entry}
    (h : q ∈ list.foldl
      (fun acc pkg => objSet acc pkg.name (entryOfInstalled pkg)) acc) :
    q ∈ acc ∨ ∃ pkg ∈ list, q = (pkg.name, entryOfInstalled pkg) := by
  induction list generalizing acc with
  | nil => exact Or.inl h
  | cons pkg rest ih =>
    rw [List.foldl_cons] at h
    rcases ih _ h with h2 | h2
    · rcases mem_objSet h2 with h3 | h3
      · exact Or.inl h3
      · exact Or.inr ⟨pkg, List.mem_cons_self _ _, h3⟩
    · rcases h2 with ⟨pkg2, hmem, hq⟩
      exact Or.inr ⟨pkg2, List.mem_cons_of_mem _ hmem, hq⟩

theorem mem_translateInstalled {list : List InstalledEntry}
    {q : String × Entry} (h : q ∈ translateInstalled list) :
    ∃ pkg ∈ list, q = (pkg.name, entryOfInstalled pkg) := by
  rcases mem_translateInstalled_aux list [] h with h2 | h2
  · simp at h2
  · exact h2

/-! Lemmas about the pending-action tracker. -/

theorem findIdx?_append_self (pa : List Nat) (x : Nat) (hx : x ∉ pa) :
    ∀ i, List.findIdx? (fun a => a = x) (pa ++ [x]) i =
      some (pa.length + i) := by
  induction pa with
  | nil =>
    intro i
    simp [List.findIdx?_cons]
  | cons a t ih =>
    intro i
    have hax : ¬(a = x) := fun hh => hx (by simp [hh])
    rw [List.cons_append, List.findIdx?_cons]
    simp only [hax, decide_eq_true_eq, if_false]
    rw [ih (fun hmem => hx (List.mem_cons_of_mem a hmem)) (i + 1)]
    congr 1
    simp
    omega

theorem jsIndexOf_append_self (pa : List Nat) (x : Nat) (hx : x ∉ pa) :
    jsIndexOf (pa ++ [x]) x = (pa.length : Int) := by
  unfold jsIndexOf
  rw [findIdx?_append_self pa x hx 0]
  simp

theorem jsSpliceOne_at_length (pa : List Nat) (x : Nat) :
    jsSpliceOne (pa ++ [x]) ((pa.length : Int)) = pa := by
  unfold jsSpliceOne
  have h0 : ¬((pa.length : Int) < 0) := by omega
  simp only [if_neg h0, Int.toNat_natCast]
  rw [List.take_left]
  have hlen : (pa ++ [x]).length ≤ pa.length + 1 := by simp
  rw [List.drop_eq_nil_of_le hlen, List.append_nil]

/-! Claim theorems. -/

/-- C7: when `query` is null a reconciliation pass makes no registry call,
and afterwards `searchResult` is empty, `totalEntries` is `0` and the search
error slot is cleared. -/
theorem update_null_query (trusted : String → Bool) (s : ModelState)
    (env : UpdateEnv) :
    ((performSearch { s with query := none } env.searchOutcome).2.2
        = false) ∧
    ((update trusted { s with query := none } env).searchResult = []) ∧
    ((update trusted { s with query := none } env).totalEntries = 0) ∧
    ((update trusted { s with query := none } env).searchError = none) := by
  obtain ⟨so, io⟩ := env
  cases io <;>
    simp [update, performSearch, queryInstalled, searchViewInput,
      sortEntries, stableSort, installedViewInput]

/-- C8: the search channel never touches the installed-query error slot and
vice versa; each slot is cleared on its own channel's success and set on its
own channel's failure. -/
theorem error_slot_isolation (s : ModelState)
    (searchOut : Except String SearchResultPage)
    (installedOut : Except String (List InstalledEntry))
    (q reason : String) (page : SearchResultPage)
    (list : List InstalledEntry) :
    ((performSearch s searchOut).1.installedError = s.installedError) ∧
    ((queryInstalled s installedOut).1.searchError = s.searchError) ∧
    ((performSearch { s with query := some q }
        (Except.ok page)).1.searchError = none) ∧
    ((performSearch { s with query := some q }
        (Except.error reason)).1.searchError = some reason) ∧
    ((queryInstalled s (Except.ok list)).1.installedError = none) ∧
    ((queryInstalled s
        (Except.error reason)).1.installedError = some reason) := by
  refine ⟨?_, ?_, rfl, rfl, rfl, rfl⟩
  · cases hq : s.query <;> cases searchOut <;> simp [performSearch, hq]
  · cases installedOut <;> simp [queryInstalled]

/-- C9: adding a pending action appends its handle and immediately emits a
state-changed notification; the completion handler (attached identically for
success and failure) removes the handle and emits again;
`hasPendingActions` is true exactly when at least one handle is
outstanding. -/
theorem pending_action_accounting (t : PendingTracker) (h : Nat) :
    ((addPendingAction t h).pendingActions = t.pendingActions ++ [h]) ∧
    ((addPendingAction t h).stateChangedCount = t.stateChangedCount + 1) ∧
    (hasPendingActions (addPendingAction t h) = true) ∧
    ((completePendingAction t h).stateChangedCount
        = t.stateChangedCount + 1) ∧
    (hasPendingActions t = true ↔ t.pendingActions ≠ []) ∧
    (h ∉ t.pendingActions →
      (completePendingAction (addPendingAction t h) h).pendingActions
        = t.pendingActions) := by
  refine ⟨rfl, rfl, ?_, rfl, ?_, ?_⟩
  · simp [hasPendingActions, addPendingAction]
  · rw [hasPendingActions]
    simp [List.length_pos]
  · intro hx
    simp only [completePendingAction, addPendingAction]
    rw [jsIndexOf_append_self _ _ hx, jsSpliceOne_at_length]

/-- C9 witness: starting from the empty tracker, an added handle makes
`hasPendingActions` true and one completion restores the empty bag. -/
theorem pending_action_accounting_witness :
    (completePendingAction (addPendingAction tracker0 5) 5).pendingActions
      = tracker0.pendingActions :=
  (pending_action_accounting tracker0 5).2.2.2.2.2 (by decide)

/-- C10: `entryHasUpdate` returns false when the entry is not installed or
its latest version is empty, and otherwise returns exactly the
semantic-version comparison of installed against latest version (`semver.lt`
of the external `semver` package, abstracted as `semverLt`). -/
theorem entryHasUpdate_spec (semverLt : String → String → Bool)
    (e : Entry) :
    (e.installed = false → entryHasUpdate semverLt e = false) ∧
    (e.latest_version = "" → entryHasUpdate semverLt e = false) ∧
    (e.installed = true → e.latest_version ≠ "" →
      entryHasUpdate semverLt e
        = semverLt e.installed_version e.latest_version) := by
  refine ⟨?_, ?_, ?_⟩
  · intro h
    simp [entryHasUpdate, h]
  · intro h
    simp [entryHasUpdate, h]
  · intro h1 h2
    simp [entryHasUpdate, h1, h2]

/-- C10 witness: an installed entry with versions `1.0.0 < 2.0.0` reports an
update under a comparison that says so. -/
theorem entryHasUpdate_spec_witness :
    entryHasUpdate (fun _ _ => true) demoInstalled = true :=
  (entryHasUpdate_spec (fun _ _ => true) demoInstalled).2.2 rfl (by decide)

/-- C6: `uninstall` on a non-installed entry, `enable` on an enabled entry
and `disable` on a disabled entry raise synchronously, before any network
call (an `Except.error` result carries no events, in particular no `net`
request); in every other case the methods return without a synchronous
error, whatever the asynchronous outcome. -/
theorem action_precondition_sync (entry : Entry)
    (outcome : Except String ActionReply)
    (companion : Except String Bool) :
    (entry.installed = false →
      uninstallEvents entry outcome
        = Except.error ("Not installed, cannot uninstall: " ++ entry.name) ∧
      okEvents (uninstallEvents entry outcome) = []) ∧
    (entry.enabled = true →
      enableEvents entry outcome
        = Except.error ("Already enabled: " ++ entry.name) ∧
      okEvents (enableEvents entry outcome) = []) ∧
    (entry.enabled = false →
      disableEvents entry outcome
        = Except.error ("Already disabled: " ++ entry.name) ∧
      okEvents (disableEvents entry outcome) = []) ∧
    (entry.installed = true →
      isOkResult (uninstallEvents entry outcome) = true) ∧
    (entry.enabled = false →
      isOkResult (enableEvents entry outcome) = true) ∧
    (entry.enabled = true →
      isOkResult (disableEvents entry outcome) = true) ∧
    (isOkResult (installEvents entry companion outcome) = true) := by
  refine ⟨?_, ?_, ?_, ?_, ?_, ?_, ?_⟩
  · intro h
    simp [uninstallEvents, h, okEvents]
  · intro h
    simp [enableEvents, h, okEvents]
  · intro h
    simp [disableEvents, h, okEvents]
  · intro h
    simp [uninstallEvents, h, isOkResult]
  · intro h
    simp [enableEvents, h, isOkResult]
  · intro h
    simp [disableEvents, h, isOkResult]
  · cases he : entry.installed <;> simp [installEvents, he, isOkResult]

/-- C6 witness: uninstalling the concrete non-installed entry raises the
synchronous error with no events. -/
theorem action_precondition_sync_witness :
    uninstallEvents demoNotInstalled (Except.ok replyOk)
      = Except.error "Not installed, cannot uninstall: bar" :=
  ((action_precondition_sync demoNotInstalled (Except.ok replyOk)
    (Except.ok true)).1 rfl).1

/-- C1 counterexample: for an installed entry whose uninstall POST settles
as a rejected promise (non-2xx response `500 (Internal Server Error)`), the
`.then(data => this.update())` chain has no rejection handler, so no
reconciliation pass runs after the failed action — contradicting the claim
that update is always re-run whether the action succeeded or failed. -/
theorem action_update_after_failure_cex :
    uninstallEvents demoInstalled
        (Except.error "500 (Internal Server Error)")
      = Except.ok [Ev.net "uninstall" "@jupyterlab/foo"] ∧
    (okEvents (uninstallEvents demoInstalled
        (Except.error "500 (Internal Server Error)"))).contains
      Ev.updateRun = false := by
  constructor
  · rfl
  · decide

/-- C1 amended: for each of the four actions, a reconciliation pass is
re-run exactly when the action's promise resolves (including a resolved
reply whose status is not ok); when the promise rejects (e.g. a non-2xx
HTTP response) no update is run. -/
theorem action_update_after_resolution (entry : Entry)
    (reply : ActionReply) (reason : String)
    (companion : Except String Bool) :
    (entry.installed = true →
      Ev.updateRun ∈ okEvents (uninstallEvents entry (Except.ok reply)) ∧
      Ev.updateRun ∉
        okEvents (uninstallEvents entry (Except.error reason))) ∧
    (entry.enabled = false →
      Ev.updateRun ∈ okEvents (enableEvents entry (Except.ok reply)) ∧
      Ev.updateRun ∉ okEvents (enableEvents entry (Except.error reason))) ∧
    (entry.enabled = true →
      Ev.updateRun ∈ okEvents (disableEvents entry (Except.ok reply)) ∧
      Ev.updateRun ∉
        okEvents (disableEvents entry (Except.error reason))) ∧
    (entry.installed = true →
      Ev.updateRun ∈
        okEvents (installEvents entry companion (Except.ok reply)) ∧
      Ev.updateRun ∉
        okEvents (installEvents entry companion (Except.error reason))) ∧
    (entry.installed = false →
      Ev.updateRun ∈
        okEvents (installEvents entry (Except.ok true) (Except.ok reply)) ∧
      Ev.updateRun ∉
        okEvents
          (installEvents entry (Except.ok true) (Except.error reason))) := by
  refine ⟨?_, ?_, ?_, ?_, ?_⟩ <;> intro h <;> constructor <;>
    simp [uninstallEvents, enableEvents, disableEvents, installEvents, h,
      okEvents, performActionEvents, thenEvents, installReplyEvents]

/-- C1 amended witness: the concrete installed entry's uninstall re-runs
update when the POST resolves. -/
theorem action_update_after_resolution_witness :
    Ev.updateRun ∈ okEvents (uninstallEvents demoInstalled
      (Except.ok replyOk)) :=
  ((action_update_after_resolution demoInstalled replyOk
    "500 (Internal Server Error)" (Except.ok true)).1 rfl).1

/-- C5: the companion gate approves without prompting when the metadata
chain is absent or declares no discovery section, and when the computed
kernel-companion list is empty with no server companion declared; in every
other case it presents the computed companions and returns exactly the user
decision. -/
theorem companion_gate (matchFn : KernelInstallInfo → List KernelSpecModel)
    (decision : List KernelCompanion → Option Unit → Bool)
    (data : Option PackageData) :
    ((data.bind (fun d => d.jupyterlab)).bind (fun j => j.discovery) = none →
      checkCompanionPackages matchFn decision data = (true, none)) ∧
    (∀ discovery,
      (data.bind (fun d => d.jupyterlab)).bind (fun j => j.discovery)
          = some discovery →
      (kernelCompanionsOf matchFn discovery = [] ∧ discovery.server = none →
        checkCompanionPackages matchFn decision data = (true, none)) ∧
      (kernelCompanionsOf matchFn discovery ≠ [] ∨ discovery.server ≠ none →
        checkCompanionPackages matchFn decision data
          = (decision (kernelCompanionsOf matchFn discovery)
                discovery.server,
              some (kernelCompanionsOf matchFn discovery,
                discovery.server)))) := by
  constructor
  · intro h
    simp [checkCompanionPackages, h]
  · intro discovery h
    constructor
    · intro ⟨hk, hs⟩
      simp [checkCompanionPackages, h, hk, hs]
    · intro hor
      have hcond : ¬((kernelCompanionsOf matchFn discovery).length < 1 ∧
          discovery.server = none) := by
        intro ⟨hlen, hserver⟩
        rcases hor with h2 | h2
        · exact h2 (List.length_eq_zero.mp (Nat.lt_one_iff.mp hlen))
        · exact h2 hserver
      simp only [checkCompanionPackages, h]
      rw [if_neg hcond]

/-- C5 witness: metadata declaring a discovery section with no kernel rules
and no server companion is approved silently. -/
theorem companion_gate_witness :
    checkCompanionPackages matchFn0 decision0 dataNoCompanions
      = (true, none) :=
  ((companion_gate matchFn0 decision0 dataNoCompanions).2
    { kernel := none, server := none } rfl).1 ⟨rfl, rfl⟩

/-- C2: in the search view published by a pass whose two fetches resolved,
a name present in both maps contributes the installed map's entry (the whole
record, hence every field), and a name present only in the search map
contributes the search-derived entry. -/
theorem searchResult_dedup (trusted : String → Bool) (s : ModelState)
    (q : String) (page : SearchResultPage) (list : List InstalledEntry)
    (pkgName : String) (e : Entry) :
    (lookupEntry (translateInstalled list) pkgName = some e →
      pkgName ∈ mapKeys (translateSearchResult page.objects) →
      e ∈ (update trusted { s with query := some q }
        ⟨Except.ok page, Except.ok list⟩).searchResult) ∧
    (lookupEntry (translateInstalled list) pkgName = none →
      (pkgName, e) ∈ translateSearchResult page.objects →
      e ∈ (update trusted { s with query := some q }
        ⟨Except.ok page, Except.ok list⟩).searchResult) := by
  have hview : (update trusted { s with query := some q }
      ⟨Except.ok page, Except.ok list⟩).searchResult
      = sortEntries trusted (searchViewInput
          (translateSearchResult page.objects)
          (translateInstalled list)) := by
    simp [update, performSearch, queryInstalled]
  constructor
  · intro hl hk
    rw [hview, mem_sortEntries, searchViewInput]
    simp only [mapKeys] at hk
    obtain ⟨p, hp, hpk⟩ := List.mem_map.mp hk
    refine List.mem_map.mpr ⟨p, hp, ?_⟩
    have hlp : lookupEntry (translateInstalled list) p.1 = some e := by
      rw [hpk]
      exact hl
    simp [hlp]
  · intro hl hmem
    rw [hview, mem_sortEntries, searchViewInput]
    exact List.mem_map.mpr ⟨(pkgName, e), hmem, by simp [hl]⟩

/-- C2 witness: package `a` appears in both the concrete search page and the
concrete installed list, and the published search view contains the
installed entry. -/
theorem searchResult_dedup_witness :
    entryOfInstalled wireA ∈ (update trusted0
      { demoState with query := some "a" }
      ⟨Except.ok pageA, Except.ok [wireA]⟩).searchResult :=
  (searchResult_dedup trusted0 demoState "a" pageA [wireA] "a"
    (entryOfInstalled wireA)).1 (by decide) (by decide)

/-- C3: both published views are the comparator's stable sort of their
upstream lists; that sort places the whole trusted class first while each
trust class keeps its upstream relative order (the sorted view restricted
to a class is exactly the upstream list restricted to that class), and in
the sorted view no untrusted entry ever precedes a trusted one. -/
theorem views_trusted_first_stable (trusted : String → Bool)
    (s : ModelState) (env : UpdateEnv) :
    ((update trusted s env).installed
        = sortEntries trusted (installedViewInput (installedMapOf s env))) ∧
    ((update trusted s env).searchResult
        = sortEntries trusted (searchViewInput (searchMapOf s env)
            (installedMapOf s env))) ∧
    (∀ l : List Entry,
      sortEntries trusted l
        = l.filter (fun e => trusted e.name)
            ++ l.filter (fun e => !trusted e.name)) ∧
    (∀ (l : List Entry) (i j : Nat)
        (hi : i < (sortEntries trusted l).length)
        (hj : j < (sortEntries trusted l).length), i ≤ j →
      trusted (((sortEntries trusted l).get ⟨j, hj⟩).name) = true →
      trusted (((sortEntries trusted l).get ⟨i, hi⟩).name) = true) := by
  refine ⟨rfl, rfl, sortEntries_eq trusted, ?_⟩
  intro l i j
  rw [sortEntries_eq trusted l]
  exact append_classes_ordered (fun e : Entry => trusted e.name) _ _
    (fun e he => (List.mem_filter.mp he).2)
    (fun e he => by simpa using (List.mem_filter.mp he).2)
    i j

/-- C3 witness: with the untrusted entry listed first upstream, the sorted
view has the trusted entry at position 0. -/
theorem views_trusted_first_stable_witness :
    trusted0 (((sortEntries trusted0 demoViewList).get
      ⟨0, by decide⟩ : Entry).name) = true :=
  (views_trusted_first_stable trusted0 demoState demoEnv).2.2.2
    demoViewList 0 0 (by decide) (by decide) (by decide) (by decide)

/-- C4 counterexample: the installed-list translation copies `enabled` and
`installed_version` verbatim, so the wire record `badWire` (`installed:
false`, `enabled: true`, `installed_version: "1.0.0"`) produces an entry
with `installed = false` yet `enabled = true` and a non-empty installed
version, violating the claimed invariant. -/
theorem translateInstalled_invariant_cex :
    (entryOfInstalled badWire).installed = false ∧
    (entryOfInstalled badWire).enabled = true ∧
    (entryOfInstalled badWire).installed_version = "1.0.0" ∧
    translateInstalled [badWire] = [("x", entryOfInstalled badWire)] := by
  refine ⟨by decide, rfl, rfl, rfl⟩

/-- C4 amended: every entry from the search translation satisfies the
invariant (it is always marked not installed with empty version and
disabled); an entry from the installed translation satisfies the invariant
provided the wire records do, since the translation copies those fields
verbatim. -/
theorem translation_invariant_amended (objects : List SearchObject)
    (list : List InstalledEntry) (k : String) (e : Entry) :
    ((k, e) ∈ translateSearchResult objects →
      e.installed = false ∧ e.installed_version = "" ∧ e.enabled = false) ∧
    ((∀ p ∈ list, p.installed = some false →
        p.installed_version = "" ∧ p.enabled = false) →
      (k, e) ∈ translateInstalled list → e.installed = false →
      e.installed_version = "" ∧ e.enabled = false) := by
  constructor
  · intro hmem
    obtain ⟨pkg, hq⟩ := mem_translateSearchResult hmem
    have he : e = entryOfSearchPackage pkg := congrArg Prod.snd hq
    rw [he]
    exact ⟨rfl, rfl, rfl⟩
  · intro hwf hmem hinst
    obtain ⟨pkg, hpmem, hq⟩ := mem_translateInstalled hmem
    have he : e = entryOfInstalled pkg := congrArg Prod.snd hq
    have hpf : pkg.installed = some false := by
      rw [he] at hinst
      simpa [entryOfInstalled] using hinst
    obtain ⟨h1, h2⟩ := hwf pkg hpmem hpf
    rw [he]
    exact ⟨h1, h2⟩

/-- C4 amended witness: the concrete registry package translates to an
entry satisfying the invariant. -/
theorem translation_invariant_amended_witness :
    (entryOfSearchPackage pkgA).installed = false ∧
    (entryOfSearchPackage pkgA).installed_version = "" ∧
    (entryOfSearchPackage pkgA).enabled = false :=
  (translation_invariant_amended [{ package := pkgA }] [] pkgA.name
    (entryOfSearchPackage pkgA)).1 (by decide)

end ExtensionManager
